import Mathlib

/-!
Verification of the metrics-collection-and-alerting engine of the
rabbitmq-zabbix-monitor repository, via a shallow embedding of its Python
source into Lean.  Each definition mirrors one Python function; network,
socket and subprocess effects are abstracted into explicit environment
records passed as arguments.
-/

set_option autoImplicit false

/-! ## Alert deduplication engine (src/src/main.py, src/utils.py) -/

/-- Embedding of `get_alert_key` from `src/utils.py`: `f"{node}:{vhost}:{queue}"`. -/
def get_alert_key (node vhost queue : String) : String :=
  node ++ ":" ++ vhost ++ ":" ++ queue

/-- Kind of an alert e-mail dispatched by `QueueMonitor.process_queue_metrics`. -/
inductive AlertKind where
  | drift
  | thresholdExceeded
deriving DecidableEq, Repr, BEq

/-- The context dictionary passed to `send_drift_alert`/`send_threshold_alert`. -/
structure Alert where
  kind : AlertKind
  node : String
  vhost : String
  queue : String
  previousCount : Int
  currentCount : Int
deriving DecidableEq, Repr, BEq

/-- Embedding of `QueueMonitor.process_queue_metrics` (src/src/main.py, lines 36-84), restricted
to its alerting state: given whether the queue is monitored, the configured
absolute threshold, the previous value read back from Zabbix and the current
count, it updates the set of sent-alert dedup keys and returns the list of
alert e-mails dispatched this cycle.  The Zabbix item-creation and value-send
steps do not touch `sent_alerts` and are omitted. -/
def process_queue_metrics (monitored : Bool) (threshold : Int)
    (prevCount : Option Int) (vhost queue : String) (count : Int)
    (clusterNode : String) (sentAlerts : Finset String) :
    Finset String × List Alert :=
  if monitored then
    let alertKey := get_alert_key clusterNode vhost queue
    match prevCount with
    | some prev =>
      if count > prev then
        if alertKey ∈ sentAlerts then
          (sentAlerts, [])
        else
          let context : AlertKind → Alert := fun k =>
            ⟨k, clusterNode, vhost, queue, prev, count⟩
          let alerts :=
            if count > threshold then
              [context AlertKind.drift, context AlertKind.thresholdExceeded]
            else
              [context AlertKind.drift]
          (insert alertKey sentAlerts, alerts)
      else
        (sentAlerts.erase alertKey, [])
    | none =>
      (sentAlerts.erase alertKey, [])
  else
    (sentAlerts, [])

/-- Whether an alert is a drift alert. -/
def isDrift (a : Alert) : Bool :=
  match a.kind with
  | AlertKind.drift => true
  | AlertKind.thresholdExceeded => false

/-- Whether an alert is a threshold alert. -/
def isThreshold (a : Alert) : Bool :=
  match a.kind with
  | AlertKind.drift => false
  | AlertKind.thresholdExceeded => true

/-- Number of drift alerts in a dispatched alert list. -/
def countDrift (alerts : List Alert) : Nat :=
  (alerts.filter isDrift).length

/-- Whether a dispatched alert list contains a threshold alert. -/
def hasThresholdAlert (alerts : List Alert) : Bool :=
  alerts.any isThreshold

/-! ## Threshold alerting in MonitoringService (src/app/core/monitoring.py) -/

/-- One entry of the metrics list handled by
`MonitoringService.send_metrics_to_zabbix` (its `queue_info` part). -/
structure QueueMetric where
  host : String
  vhost : String
  queue : String
  messages : Int
  consumers : Int
deriving DecidableEq, Repr

/-- The `alert_data` accumulation of `MonitoringService.send_metrics_to_zabbix`
(src/app/core/monitoring.py, lines 117-133): every metric whose `messages`
exceeds the configured threshold yields one `threshold` alert, independent of
any previous value. -/
def threshold_alert_data (threshold : Int) (metrics : List QueueMetric) :
    List QueueMetric :=
  metrics.filter (fun m => decide (m.messages > threshold))

/-! ## Drift percentage rule (src/app/api/endpoints/zabbix.py, update_queue_metrics) -/

/-- Embedding of `increase_percentage = (increase / previous_value * 100) if previous_value > 0
else 100` with `increase = messages_ready - previous_value`. -/
def increase_percentage (prev cur : ℚ) : ℚ :=
  if prev > 0 then (cur - prev) / prev * 100 else 100

/-- The warning condition written at lines 236-250 of `update_queue_metrics`
(src/app/api/endpoints/zabbix.py): a warning is appended exactly when threshold
checking is on, a previous value exists, the current value strictly increased,
and the computed percentage exceeds the configured threshold percentage.
Note: these lines are dead code — the handler raises before reaching them on
every call (see `update_queue_metrics_handler`). -/
def drift_warning (checkThreshold : Bool) (thresholdPct : ℚ)
    (prev : Option ℚ) (cur : ℚ) : Bool :=
  checkThreshold &&
    match prev with
    | none => false
    | some p => decide (cur > p) && decide (increase_percentage p cur > thresholdPct)

/-- Embedding of the `update_queue_metrics` Flask handler
(src/app/api/endpoints/zabbix.py, lines 81-250) at the level of its local
variable `data`.  In Python a name assigned anywhere in a function body is a
local of the whole body, unbound until its first assignment executes.  On
entry `data` is unbound (modelled by the `none` initializer); the body's first
statement (line 150, `send_emails = data.get('send_emails', True)`) reads it,
while its only assignment is the later line 152 (`data = request.json or {}`) —
so the read raises UnboundLocalError, the outer `except` catches it and
returns the error response, and the per-queue update/warning loop (whose
warning condition is `drift_warning`) would run only in the unreachable
continuation, where it would collect the queues satisfying `drift_warning`. -/
def update_queue_metrics_handler (checkThreshold : Bool) (thresholdPct : ℚ)
    (_requestJson : List (String × String))
    (queues : List (Option ℚ × ℚ)) : Except String (List (Option ℚ × ℚ)) :=
  let dataLocal : Option (List (String × String)) := none
  match dataLocal with
  | none =>
    Except.error "UnboundLocalError: local variable referenced before assignment"
  | some _ =>
    Except.ok (queues.filter
      (fun q => drift_warning checkThreshold thresholdPct q.1 q.2))

/-! ## Round-robin node selection (src/app/core/rabbitmq.py) -/

/-- Embedding of `RabbitMQClient._get_next_node` (src/app/core/rabbitmq.py, lines 50-54):
returns `self.nodes[self._current_node_index]` and advances the cursor modulo
the node count. -/
def get_next_node (nodes : List String) (cursor : Nat) : String × Nat :=
  (nodes.getD cursor "", (cursor + 1) % nodes.length)

/-- Iterated calls to `_get_next_node`, collecting the returned nodes and
the final cursor. -/
def iterate_next (nodes : List String) : Nat → Nat → List String × Nat
  | 0, cursor => ([], cursor)
  | k + 1, cursor =>
    let step := get_next_node nodes cursor
    let rest := iterate_next nodes k step.2
    (step.1 :: rest.1, rest.2)

/-! ## Failover request logic (src/app/core/rabbitmq.py, _make_request) -/

/-- The error line appended for a round-robin attempt:
`f"Failed to connect to node {current_node}: {str(e)}"`. -/
def node_fail_msg (node reason : String) : String :=
  "Failed to connect to node " ++ node ++ ": " ++ reason

/-- The error line appended for a failed preferred-node attempt:
`f"Failed to connect to specified node {node}: {str(e)}"`. -/
def specified_fail_msg (node reason : String) : String :=
  "Failed to connect to specified node " ++ node ++ ": " ++ reason

/-- The message of the exception raised when every node failed. -/
def aggregated_error (errors : List String) : String :=
  "All RabbitMQ nodes are unavailable:\n" ++ String.intercalate "\n" errors

/-- The `continue`-skipping part of the `while` loop in `_make_request`: advance
the round-robin cursor (via `_get_next_node`) until a node outside `tried` is
reached.  In the source this scan cannot loop forever while `len(tried) <
len(self.nodes)`; the fuel (always instantiated with the node count) bounds the
scan, and `none` is returned only in the unreachable exhausted case. -/
def find_untried (nodes : List String) : Nat → Nat → List String → Option (String × Nat)
  | 0, _, _ => none
  | fuel + 1, cursor, tried =>
    let step := get_next_node nodes cursor
    if step.1 ∈ tried then find_untried nodes fuel step.2 tried
    else some (step.1, step.2)

/-- The `while len(tried) < len(self.nodes)` loop of `_make_request`: `k` is the
number of nodes still allowed to be tried (`len(self.nodes) - len(tried)`), the
per-node HTTP attempt is abstracted as `oracle` (returning the decoded JSON or
the exception text).  Each failed attempt appends its error line and extends
`tried`; the first success returns immediately.  When the budget is exhausted
the accumulated error list is raised. -/
def request_loop {D : Type} (oracle : String → Except String D)
    (nodes : List String) :
    Nat → Nat → List String → List String → Except (List String) D × Nat
  | 0, cursor, _, errors => (Except.error errors, cursor)
  | k + 1, cursor, tried, errors =>
    match find_untried nodes nodes.length cursor tried with
    | none => (Except.error errors, cursor)
    | some (node, cursor') =>
      match oracle node with
      | Except.ok resp => (Except.ok resp, cursor')
      | Except.error e =>
        request_loop oracle nodes k cursor' (tried ++ [node])
          (errors ++ [node_fail_msg node e])

/-- Embedding of `RabbitMQClient._make_request` (src/app/core/rabbitmq.py, lines 63-103).
If a preferred node is given it is attempted first (after the
`_get_node_config` lookup, which fails when the hostname is not one of the
cluster's nodes); on failure, or when no node is given, the remaining nodes are
attempted in round-robin order, skipping nodes already tried.  Returns the
first successful response together with the new cursor, or the list of
per-node error lines (joined by `aggregated_error` in the raised exception). -/
def make_request {D : Type} (oracle : String → Except String D)
    (nodes : List String) (cursor : Nat) (preferred : Option String) :
    Except (List String) D × Nat :=
  match preferred with
  | none => request_loop oracle nodes nodes.length cursor [] []
  | some p =>
    let attempt : Except String D :=
      if p ∈ nodes then oracle p
      else Except.error ("Node " ++ p ++ " not found in cluster")
    match attempt with
    | Except.ok d => (Except.ok d, cursor)
    | Except.error e =>
      request_loop oracle nodes (nodes.length - 1) cursor [p]
        [specified_fail_msg p e]

/-! ## Messages-ready counts (src/app/core/rabbitmq.py, get_messages_ready_count) -/

/-- One queue record as returned by the broker management API; `messagesReady`
is `none` when the `messages_ready` field is absent. -/
structure QueueData where
  name : String
  vhost : String
  messagesReady : Option Int
deriving DecidableEq, Repr

/-- The broker's responses for the three request shapes used by
`get_messages_ready_count`; `none` models a request that raised (or returned a
falsy body), which the source turns into an empty result either via `or []` or
via the surrounding `except` returning `{}`. -/
structure BrokerResp where
  singleQueue : String → String → Option QueueData
  vhostQueues : String → Option (List QueueData)
  allQueues : Option (List QueueData)

/-- Python dict assignment `result[key] = value` on a dict represented as an
insertion-ordered association list: replace in place if the key exists,
otherwise append. -/
def dict_insert (m : List (String × Int)) (k : String) (v : Int) :
    List (String × Int) :=
  if m.any (fun p => p.1 == k) then
    m.map (fun p => if p.1 == k then (k, v) else p)
  else
    m ++ [(k, v)]

/-- Embedding of `RabbitMQClient.get_messages_ready_count` (src/app/core/rabbitmq.py, lines
196-238): single queue when both arguments are given, all queues of a vhost
when only `vhost` is given, all queues of the cluster otherwise; entries are
keyed `"vhost/queue"` and only queues reporting a `messages_ready` field
contribute. -/
def get_messages_ready_count (b : BrokerResp) (vhost queue : Option String) :
    List (String × Int) :=
  match vhost, queue with
  | some vh, some q =>
    match b.singleQueue vh q with
    | some qd =>
      match qd.messagesReady with
      | some m => [(vh ++ "/" ++ q, m)]
      | none => []
    | none => []
  | some vh, none =>
    match b.vhostQueues vh with
    | some qs =>
      qs.foldl (fun acc qd =>
        match qd.messagesReady with
        | some m => dict_insert acc (vh ++ "/" ++ qd.name) m
        | none => acc) []
    | none => []
  | none, _ =>
    match b.allQueues with
    | some qs =>
      qs.foldl (fun acc qd =>
        match qd.messagesReady with
        | some m => dict_insert acc (qd.vhost ++ "/" ++ qd.name) m
        | none => acc) []
    | none => []

/-! ## Last-two-values lookup (src/app/core/zabbix.py, get_last_two_values) -/

/-- A Zabbix item as stored server-side: its id and the cached last/previous
value fields (which `get_last_two_values` requests only the id of). -/
structure ZbxItem where
  itemid : String
  lastvalue : Option Int
  prevvalue : Option Int
deriving DecidableEq, Repr

/-- Server state seen by `get_last_two_values`: the `item.get` result for the
host/key pair and, per item id, the numeric history rows already sorted by
clock descending (newest first) as `history.get` returns them. -/
structure ZbxHistoryEnv where
  items : List ZbxItem
  history : String → List Int

/-- Embedding of `ZabbixClient.get_last_two_values` (src/app/core/zabbix.py, lines 359-390;
the helper of the same name in src/app/api/endpoints/zabbix.py, lines 454-485,
is identical): fetch the item id, fetch at most 2 newest history rows, and
return `(newest, second newest)` with `none` for missing rows. -/
def get_last_two_values (env : ZbxHistoryEnv) : Option Int × Option Int :=
  match env.items.head? with
  | none => (none, none)
  | some item =>
    let hist := (env.history item.itemid).take 2
    (hist[0]?, hist[1]?)

/-- Modelled from the spec: `getLastTwoValues` additionally "falls back to the
item's cached last/previous value fields if no history rows exist".  This
definition follows the spec's words; no function in src/ implements the
fallback (only tests/test_zabbix.py exercises it, against a `get_item_history`
method that does not exist in src/). -/
def get_last_two_values_spec (env : ZbxHistoryEnv) : Option Int × Option Int :=
  match env.items.head? with
  | none => (none, none)
  | some item =>
    let hist := (env.history item.itemid).take 2
    if hist.isEmpty then (item.lastvalue, item.prevvalue)
    else (hist[0]?, hist[1]?)

/-! ## Plain-socket trapper delivery (src/app/core/zabbix.py, _send_with_socket) -/

/-- Whether `needle` occurs at the start of `hay` (over characters). -/
def list_starts : List Char → List Char → Bool
  | [], _ => true
  | _ :: _, [] => false
  | a :: n, b :: h => (a == b) && list_starts n h

/-- Whether `needle` occurs somewhere inside `hay` (over characters). -/
def list_in (needle : List Char) : List Char → Bool
  | [] => needle.isEmpty
  | b :: h => list_starts needle (b :: h) || list_in needle h

/-- Python's substring test `needle in hay`. -/
def py_in (needle hay : String) : Bool :=
  list_in needle.toList hay.toList

/-- Python's `str.split(sep)` for a one-character separator, over characters:
always at least one (possibly empty) segment. -/
def split_on_char (c : Char) : List Char → List (List Char)
  | [] => [[]]
  | x :: xs =>
    let rest := split_on_char c xs
    if x = c then [] :: rest
    else (x :: rest.headD []) :: rest.tail

/-- Python's `str.strip()`: drop whitespace from both ends. -/
def py_strip (cs : List Char) : List Char :=
  ((cs.dropWhile Char.isWhitespace).reverse.dropWhile Char.isWhitespace).reverse

/-- Embedding of `response.get('info', '').split(';')[0].strip()` over characters. -/
def processed_segment (info : String) : List Char :=
  py_strip ((split_on_char (Char.ofNat 59) info.toList).headD [])

/-- Embedding of `int.from_bytes(bs, byteorder='little')`. -/
def le_bytes_to_nat (bs : List Nat) : Nat :=
  bs.foldr (fun b acc => b + 256 * acc) 0

/-- The parsed JSON response of the trapper: `response.get('response')` and
`response.get('info', '')`. -/
structure ZbxResponse where
  response : Option String
  info : Option String
deriving DecidableEq, Repr

/-- Environment of one `_send_with_socket` call: whether connect/send succeed,
the bytes returned by `recv(13)`, and the parsed body returned by reading the
declared length (`none` = junk that makes `json.loads` raise). -/
structure SocketEnv where
  connectOk : Bool
  responseHeader : List Nat
  responseBody : Nat → Option ZbxResponse

/-- Embedding of `ZabbixClient._send_with_socket` (src/app/core/zabbix.py, lines 179-243):
any exception, a short response header, or a non-`success` response yields
`false`; on `response == "success"` the first `;`-segment of `info` is
stripped and the call succeeds exactly when it contains `"processed: 1"` or
`"processed 1"` as a substring.  All failures are returned, never raised. -/
def send_with_socket (env : SocketEnv) : Bool :=
  if !env.connectOk then false
  else if env.responseHeader.length < 13 then false
  else
    let respLength := le_bytes_to_nat ((env.responseHeader.drop 5).take 4)
    match env.responseBody respLength with
    | none => false
    | some resp =>
      if resp.response = some "success" then
        let processed := processed_segment (resp.info.getD "")
        list_in "processed: 1".toList processed ||
          list_in "processed 1".toList processed
      else false

/-- Modelled from the spec: "success requires `response == \"success\"` and the
info string indicating exactly one processed item" — the first `;`-segment of
`info` reports a processed count of exactly one. -/
def spec_delivery_success (resp : ZbxResponse) : Prop :=
  resp.response = some "success" ∧
    processed_segment (resp.info.getD "") = "processed: 1".toList

/-! ## External-tool delivery with PSK (src/app/core/zabbix.py, _send_with_zabbix_sender_cli) -/

/-- The TLS-related configuration consumed by `_send_with_zabbix_sender_cli`
(empty string = setting absent, matching the `.get(..., '')` defaults). -/
structure SenderConfig where
  tlsConnect : String
  pskIdentity : String
  pskKey : String
  pskFile : String
deriving DecidableEq, Repr

/-- Environment of one CLI-sender call: whether `os.path.exists` reports the
configured PSK file, and the `subprocess.run` outcome — `some (returncode,
stdout)` for a completed run, `none` when the invocation raises (e.g. the
`zabbix_sender` binary is missing).  Note: the source module never imports
`os`, so at runtime every `os.path.exists`/`os.unlink` call raises `NameError`;
this embedding generously models the `os` calls as working, and the
temporary-file leak proved below occurs even under this generous model. -/
structure CliSenderEnv where
  pskFileExists : Bool
  toolResult : Option (Int × String)

/-- Embedding of `ZabbixClient._send_with_zabbix_sender_cli` (src/app/core/zabbix.py, lines
112-177), tracking the temporary files it creates: the newline-delimited data
file, plus — in PSK mode with a literal `psk_key` and no usable `psk_file` — a
temporary file holding the PSK key material.  Returns the success flag and the
temporary files still existing when the call returns: the cleanup loop runs
after `subprocess.run`, not in a `finally` block, so when the invocation raises
the `except` handler returns `False` without deleting anything. -/
def send_with_zabbix_sender_cli (cfg : SenderConfig) (env : CliSenderEnv) :
    Bool × List String :=
  let tempFiles :=
    if cfg.tlsConnect = "psk" ∧ cfg.pskKey ≠ "" ∧
        ¬(cfg.pskFile ≠ "" ∧ env.pskFileExists = true) then
      ["tmp_data", "tmp_psk"]
    else
      ["tmp_data"]
  match env.toolResult with
  | none => (false, tempFiles)
  | some result =>
    let ok := result.1 == 0 &&
      (py_in "processed: 1" result.2 || py_in "sent: 1" result.2)
    (ok, [])

/-! ## Theorems -/

/-- C10: a `process_queue_metrics` call changes the alert-dedup set at most at
the processed queue's own key — it inserts that key, erases it, or leaves the
set unchanged — and membership of every other key is preserved. -/
theorem process_queue_metrics_frame (monitored : Bool) (threshold : Int)
    (prevCount : Option Int) (vhost queue : String) (count : Int)
    (clusterNode : String) (sent : Finset String) :
    ((process_queue_metrics monitored threshold prevCount vhost queue count
        clusterNode sent).1
        = insert (get_alert_key clusterNode vhost queue) sent ∨
      (process_queue_metrics monitored threshold prevCount vhost queue count
        clusterNode sent).1
        = sent.erase (get_alert_key clusterNode vhost queue) ∨
      (process_queue_metrics monitored threshold prevCount vhost queue count
        clusterNode sent).1 = sent) ∧
    ∀ k, k ≠ get_alert_key clusterNode vhost queue →
      (k ∈ (process_queue_metrics monitored threshold prevCount vhost queue
        count clusterNode sent).1 ↔ k ∈ sent) := by
  unfold process_queue_metrics
  cases monitored with
  | false => simp
  | true =>
    cases prevCount with
    | none =>
      refine ⟨Or.inr (Or.inl ?_), fun k hk => ?_⟩
      · simp
      · simp [Finset.mem_erase, hk]
    | some prev =>
      by_cases h1 : count > prev
      · by_cases h2 : get_alert_key clusterNode vhost queue ∈ sent
        · simp [h1, h2]
        · refine ⟨Or.inl ?_, fun k hk => ?_⟩
          · simp [h1, h2]
          · simp [h1, h2, Finset.mem_insert, hk]
      · refine ⟨Or.inr (Or.inl ?_), fun k hk => ?_⟩
        · simp [h1]
        · simp [h1, Finset.mem_erase, hk]

/-- C10 witness at a concrete input. -/
theorem process_queue_metrics_frame_witness :
    ("other" : String) ≠ get_alert_key "n1" "vh" "q1" ∧
      ("other" ∈ (process_queue_metrics true 10 (some 1) "vh" "q1" 5 "n1"
        (∅ : Finset String)).1 ↔ "other" ∈ (∅ : Finset String)) :=
  ⟨by decide,
    (process_queue_metrics_frame true 10 (some 1) "vh" "q1" 5 "n1" ∅).2
      "other" (by decide)⟩

/-- C1: starting from a state whose dedup cache does not contain the queue's
key, two consecutive cycles that both observe an increase dispatch exactly one
drift notification (the first cycle's); a later cycle observing
`current <= previous` removes the dedup key and dispatches nothing, and the
next increasing cycle dispatches a drift notification again. -/
theorem dedup_exactly_once_then_rearm
    (threshold p1 c1 p2 c2 p3 c3 p4 c4 : Int) (vhost queue node : String)
    (sent0 : Finset String) (r1 r2 r3 r4 : Finset String × List Alert)
    (hkey : get_alert_key node vhost queue ∉ sent0)
    (h1 : c1 > p1) (h2 : c2 > p2) (h3 : c3 ≤ p3) (h4 : c4 > p4)
    (hr1 : r1 = process_queue_metrics true threshold (some p1) vhost queue c1 node sent0)
    (hr2 : r2 = process_queue_metrics true threshold (some p2) vhost queue c2 node r1.1)
    (hr3 : r3 = process_queue_metrics true threshold (some p3) vhost queue c3 node r2.1)
    (hr4 : r4 = process_queue_metrics true threshold (some p4) vhost queue c4 node r3.1) :
    countDrift r1.2 = 1 ∧ countDrift r2.2 = 0 ∧
      get_alert_key node vhost queue ∈ r2.1 ∧
      countDrift r3.2 = 0 ∧ get_alert_key node vhost queue ∉ r3.1 ∧
      countDrift r4.2 = 1 := by
  have h3' : ¬(c3 > p3) := not_lt.mpr h3
  have e1 : r1.1 = insert (get_alert_key node vhost queue) sent0 ∧ countDrift r1.2 = 1 := by
    rw [hr1]
    unfold process_queue_metrics
    by_cases ht : c1 > threshold <;>
      simp [h1, hkey, ht, countDrift, isDrift]
  have e2 : r2.1 = r1.1 ∧ countDrift r2.2 = 0 := by
    have hmem : get_alert_key node vhost queue ∈ r1.1 := by
      rw [e1.1]; exact Finset.mem_insert_self _ _
    rw [hr2]
    unfold process_queue_metrics
    simp [h2, hmem, countDrift]
  have hmem2 : get_alert_key node vhost queue ∈ r2.1 := by
    rw [e2.1, e1.1]; exact Finset.mem_insert_self _ _
  have e3 : r3.1 = r2.1.erase (get_alert_key node vhost queue) ∧ countDrift r3.2 = 0 := by
    rw [hr3]
    unfold process_queue_metrics
    simp [h3', countDrift]
  have hnot3 : get_alert_key node vhost queue ∉ r3.1 := by
    rw [e3.1]; exact Finset.not_mem_erase _ _
  have e4 : countDrift r4.2 = 1 := by
    rw [hr4]
    unfold process_queue_metrics
    by_cases ht : c4 > threshold <;>
      simp [h4, hnot3, ht, countDrift, isDrift]
  exact ⟨e1.2, e2.2, hmem2, e3.2, hnot3, e4⟩

/-- C1 witness at a concrete input: baseline 1, increases to 5 and 9, a cycle
at 9 (no increase), then an increase to 12. -/
theorem dedup_exactly_once_then_rearm_witness :
    get_alert_key "n1" "vh" "q1" ∉ (∅ : Finset String) ∧
      (countDrift (process_queue_metrics true 10 (some 1) "vh" "q1" 5 "n1" ∅).2 = 1 ∧
        countDrift (process_queue_metrics true 10 (some 5) "vh" "q1" 9 "n1"
          (process_queue_metrics true 10 (some 1) "vh" "q1" 5 "n1" ∅).1).2 = 0 ∧
        get_alert_key "n1" "vh" "q1" ∈ (process_queue_metrics true 10 (some 5) "vh" "q1" 9 "n1"
          (process_queue_metrics true 10 (some 1) "vh" "q1" 5 "n1" ∅).1).1 ∧
        countDrift (process_queue_metrics true 10 (some 9) "vh" "q1" 9 "n1"
          (process_queue_metrics true 10 (some 5) "vh" "q1" 9 "n1"
            (process_queue_metrics true 10 (some 1) "vh" "q1" 5 "n1" ∅).1).1).2 = 0 ∧
        get_alert_key "n1" "vh" "q1" ∉ (process_queue_metrics true 10 (some 9) "vh" "q1" 9 "n1"
          (process_queue_metrics true 10 (some 5) "vh" "q1" 9 "n1"
            (process_queue_metrics true 10 (some 1) "vh" "q1" 5 "n1" ∅).1).1).1 ∧
        countDrift (process_queue_metrics true 10 (some 9) "vh" "q1" 12 "n1"
          (process_queue_metrics true 10 (some 9) "vh" "q1" 9 "n1"
            (process_queue_metrics true 10 (some 5) "vh" "q1" 9 "n1"
              (process_queue_metrics true 10 (some 1) "vh" "q1" 5 "n1" ∅).1).1).1).2 = 1) :=
  ⟨by decide,
    dedup_exactly_once_then_rearm 10 1 5 5 9 9 9 9 12 "vh" "q1" "n1" ∅ _ _ _ _
      (by decide) (by decide) (by decide) (by decide) (by decide)
      rfl rfl rfl rfl⟩

/-- C2: every call of the `update_queue_metrics` handler raises
UnboundLocalError — the local `data` is read at line 150 before its only
assignment at line 152 — and the outer handler turns this into an error
response; in particular the drift-percentage rule of lines 236-250 never runs,
so not even the spec's `previous=100, current=150, threshold%=10` example emits
a drift warning.  The claim's other cited source,
`QueueMonitor.process_queue_metrics` (src/src/main.py, lines 53-80), computes
no percentage at all and dispatches a drift alert on any increase, so the
spec's `previous=100, current=105, threshold%=10` no-alert example fails there
as well. -/
theorem update_queue_metrics_always_errors :
    (∀ (check : Bool) (thr : ℚ) (req : List (String × String))
      (qs : List (Option ℚ × ℚ)),
      update_queue_metrics_handler check thr req qs =
        Except.error
          "UnboundLocalError: local variable referenced before assignment") ∧
    update_queue_metrics_handler true 10 [] [(some 100, 150)] =
      Except.error
        "UnboundLocalError: local variable referenced before assignment" ∧
    countDrift
        (process_queue_metrics true 1000 (some 100) "vh" "q1" 105 "n1" ∅).2
      = 1 := by
  refine ⟨fun check thr req qs => rfl, rfl, ?_⟩
  decide

/-- C4 counterexample: with no previous value, `current=1500` and absolute
threshold `1000`, `QueueMonitor.process_queue_metrics` dispatches no alert at
all — the threshold alert is not emitted independently of the drift rule. -/
theorem threshold_not_independent_cex :
    (1500 : Int) > 1000 ∧
      (process_queue_metrics true 1000 none "vh" "q1" 1500 "n1" ∅).2 = [] := by
  constructor
  · norm_num
  · rfl

/-- C4 amended: in `MonitoringService.send_metrics_to_zabbix` a metric yields a
threshold alert exactly when its message count exceeds the threshold,
independently of any previous value; in `QueueMonitor.process_queue_metrics`
the threshold alert is dispatched only together with a drift alert, i.e.
exactly when the queue is monitored, a previous value exists, the count
strictly increased, the dedup key is absent, and the count exceeds the
threshold. -/
theorem threshold_alert_amended :
    (∀ (thr : Int) (metrics : List QueueMetric) (m : QueueMetric),
      m ∈ threshold_alert_data thr metrics ↔ m ∈ metrics ∧ m.messages > thr) ∧
    (∀ (monitored : Bool) (thr : Int) (prev : Option Int) (vhost queue : String)
      (count : Int) (node : String) (sent : Finset String),
      hasThresholdAlert
          (process_queue_metrics monitored thr prev vhost queue count node sent).2
          = true ↔
        (monitored = true ∧ ∃ p, prev = some p ∧ count > p ∧
          get_alert_key node vhost queue ∉ sent ∧ count > thr)) := by
  constructor
  · intro thr metrics m
    simp [threshold_alert_data, List.mem_filter]
  · intro monitored thr prev vhost queue count node sent
    unfold process_queue_metrics
    cases monitored with
    | false => simp [hasThresholdAlert]
    | true =>
      cases prev with
      | none => simp [hasThresholdAlert]
      | some p =>
        by_cases h1 : count > p
        · by_cases h2 : get_alert_key node vhost queue ∈ sent
          · simp [h1, h2, hasThresholdAlert]
          · by_cases h3 : count > thr <;>
              simp [h1, h2, h3, hasThresholdAlert, isThreshold]
        · simp [h1, hasThresholdAlert]

/-- Reading every position of a list in order reproduces the list. -/
theorem map_getD_range {α : Type} (d : α) :
    ∀ l : List α, (List.range l.length).map (fun i => l.getD i d) = l := by
  intro l
  induction l with
  | nil => rfl
  | cons a l ih =>
    simp only [List.length_cons, List.range_succ_eq_map, List.map_cons,
      List.map_map]
    rw [show ((fun i => (a :: l).getD i d) ∘ Nat.succ) = fun i => l.getD i d
      from rfl]
    rw [ih]
    rfl

/-- Characterization of `k` successive `_get_next_node` calls: the outputs are
the node positions `cursor, cursor+1, ...` modulo the node count, and the final
cursor has advanced by `k` modulo the node count. -/
theorem iterate_next_spec (nodes : List String) :
    ∀ (k cursor : Nat), cursor < nodes.length →
      iterate_next nodes k cursor =
        ((List.range k).map
            (fun d => nodes.getD ((cursor + d) % nodes.length) ""),
          (cursor + k) % nodes.length) := by
  intro k
  induction k with
  | zero =>
    intro cursor hc
    simp [iterate_next, Nat.mod_eq_of_lt hc]
  | succ k ih =>
    intro cursor hc
    have hN : 0 < nodes.length := Nat.lt_of_le_of_lt (Nat.zero_le cursor) hc
    have hc' : (cursor + 1) % nodes.length < nodes.length := Nat.mod_lt _ hN
    have step := ih ((cursor + 1) % nodes.length) hc'
    simp only [iterate_next, get_next_node, step, List.range_succ_eq_map,
      List.map_cons, List.map_map]
    refine Prod.ext ?_ ?_
    · show nodes.getD cursor "" ::
        List.map (fun d =>
          nodes.getD (((cursor + 1) % nodes.length + d) % nodes.length) "")
          (List.range k) = _
      have hhead : nodes.getD ((cursor + 0) % nodes.length) ""
          = nodes.getD cursor "" := by
        rw [Nat.add_zero, Nat.mod_eq_of_lt hc]
      have htail : List.map
          ((fun d => nodes.getD ((cursor + d) % nodes.length) "") ∘ Nat.succ)
          (List.range k)
          = List.map (fun d =>
              nodes.getD (((cursor + 1) % nodes.length + d) % nodes.length) "")
              (List.range k) := by
        refine List.map_congr_left ?_
        intro d _
        simp only [Function.comp_apply]
        rw [Nat.mod_add_mod, show cursor + Nat.succ d = cursor + 1 + d
          from by omega]
      rw [hhead, htail]
    · show ((cursor + 1) % nodes.length + k) % nodes.length = _
      rw [Nat.mod_add_mod, show cursor + 1 + k = cursor + (k + 1)
        from by omega]

/-- C6: from any in-range cursor, `N` successive `_get_next_node` calls return
each of the `N` distinct nodes exactly once (a permutation of the node list),
the cursor returns to its starting value, and the `(N+1)`-st call returns the
same node as the first call. -/
theorem round_robin_cycle (nodes : List String) (cursor : Nat)
    (hc : cursor < nodes.length) (hnd : nodes.Nodup) :
    (iterate_next nodes nodes.length cursor).1.Perm nodes ∧
    (∀ n ∈ nodes, (iterate_next nodes nodes.length cursor).1.count n = 1) ∧
    (iterate_next nodes nodes.length cursor).2 = cursor ∧
    (iterate_next nodes (nodes.length + 1) cursor).1 =
      (iterate_next nodes nodes.length cursor).1 ++ [nodes.getD cursor ""] ∧
    (iterate_next nodes nodes.length cursor).1.headD "" = nodes.getD cursor "" := by
  have hN : 0 < nodes.length := Nat.lt_of_le_of_lt (Nat.zero_le cursor) hc
  have hspec := iterate_next_spec nodes nodes.length cursor hc
  have hspec1 := iterate_next_spec nodes (nodes.length + 1) cursor hc
  -- the index list visited by the cursor is a permutation of all positions
  have hidx : ((List.range nodes.length).map
      (fun d => (cursor + d) % nodes.length)).Perm (List.range nodes.length) := by
    have hnodup : ((List.range nodes.length).map
        (fun d => (cursor + d) % nodes.length)).Nodup := by
      refine List.Nodup.map_on ?_ (List.nodup_range _)
      intro x hx y hy hxy
      have hx' : x < nodes.length := List.mem_range.mp hx
      have hy' : y < nodes.length := List.mem_range.mp hy
      have hmod : x % nodes.length = y % nodes.length :=
        Nat.ModEq.add_left_cancel' cursor hxy
      rwa [Nat.mod_eq_of_lt hx', Nat.mod_eq_of_lt hy'] at hmod
    have hsub : ((List.range nodes.length).map
        (fun d => (cursor + d) % nodes.length)) ⊆ List.range nodes.length := by
      intro i hi
      rcases List.mem_map.mp hi with ⟨d, _, rfl⟩
      exact List.mem_range.mpr (Nat.mod_lt _ hN)
    refine List.Subperm.perm_of_length_le
      (List.subperm_of_subset hnodup hsub) ?_
    simp
  have houtputs : (iterate_next nodes nodes.length cursor).1.Perm nodes := by
    rw [hspec]
    have hcomp : (List.range nodes.length).map
        (fun d => nodes.getD ((cursor + d) % nodes.length) "")
        = ((List.range nodes.length).map
            (fun d => (cursor + d) % nodes.length)).map
          (fun i => nodes.getD i "") := by
      rw [List.map_map]
      rfl
    rw [hcomp]
    have := hidx.map (fun i => nodes.getD i "")
    rwa [map_getD_range "" nodes] at this
  refine ⟨houtputs, ?_, ?_, ?_, ?_⟩
  · intro n hn
    rw [houtputs.count_eq]
    exact List.count_eq_one_of_mem hnd hn
  · rw [hspec]
    simp [Nat.add_mod_right, Nat.mod_eq_of_lt hc]
  · rw [hspec, hspec1]
    simp only [List.range_succ, List.map_append, List.map_cons, List.map_nil]
    rw [Nat.add_mod_right, Nat.mod_eq_of_lt hc]
  · rw [hspec]
    have : List.range nodes.length = 0 :: (List.range (nodes.length - 1)).map Nat.succ := by
      rw [← List.range_succ_eq_map]
      congr 1
      omega
    rw [this]
    simp [Nat.mod_eq_of_lt hc]

/-- C6 witness at a concrete three-node cluster. -/
theorem round_robin_cycle_witness :
    (1 < (["nodeA", "nodeB", "nodeC"] : List String).length ∧
      (["nodeA", "nodeB", "nodeC"] : List String).Nodup) ∧
      (iterate_next ["nodeA", "nodeB", "nodeC"] 3 1).2 = 1 :=
  ⟨⟨by decide, by decide⟩,
    (round_robin_cycle ["nodeA", "nodeB", "nodeC"] 1 (by decide) (by decide)).2.2.1⟩

/-- If the skip-scan returns nothing, every position it visited holds an
already-tried node. -/
theorem find_untried_none_covers (nodes : List String) :
    ∀ (fuel cursor : Nat) (tried : List String), cursor < nodes.length →
      find_untried nodes fuel cursor tried = none →
      ∀ d < fuel, nodes.getD ((cursor + d) % nodes.length) "" ∈ tried := by
  intro fuel
  induction fuel with
  | zero => intro cursor tried _ _ d hd; omega
  | succ fuel ih =>
    intro cursor tried hc hnone d hd
    have hN : 0 < nodes.length := Nat.lt_of_le_of_lt (Nat.zero_le cursor) hc
    unfold find_untried at hnone
    simp only [get_next_node] at hnone
    by_cases hmem : nodes.getD cursor "" ∈ tried
    · rw [if_pos hmem] at hnone
      cases d with
      | zero =>
        rw [Nat.add_zero, Nat.mod_eq_of_lt hc]
        exact hmem
      | succ d =>
        have := ih ((cursor + 1) % nodes.length) tried (Nat.mod_lt _ hN)
          hnone d (by omega)
        rwa [Nat.mod_add_mod, show cursor + 1 + d = cursor + (d + 1) from by omega]
          at this
    · rw [if_neg hmem] at hnone
      exact absurd hnone (by simp)

/-- With fuel equal to the node count, the skip-scan succeeds whenever an
untried node exists. -/
theorem find_untried_finds (nodes : List String) (cursor : Nat)
    (tried : List String) (hc : cursor < nodes.length)
    (huntried : ∃ n ∈ nodes, n ∉ tried) :
    find_untried nodes nodes.length cursor tried ≠ none := by
  have hN : 0 < nodes.length := Nat.lt_of_le_of_lt (Nat.zero_le cursor) hc
  intro hnone
  have hcov := find_untried_none_covers nodes nodes.length cursor tried hc hnone
  have hall : ∀ j < nodes.length, nodes.getD j "" ∈ tried := by
    intro j hj
    have hd : (j + nodes.length - cursor) % nodes.length < nodes.length :=
      Nat.mod_lt _ hN
    have := hcov ((j + nodes.length - cursor) % nodes.length) hd
    rwa [Nat.add_mod_mod,
      show cursor + (j + nodes.length - cursor) = j + nodes.length from by omega,
      Nat.add_mod_right, Nat.mod_eq_of_lt hj] at this
  rcases huntried with ⟨n, hn, hnt⟩
  rcases List.mem_iff_getElem.mp hn with ⟨j, hj, rfl⟩
  have h2 := hall j hj
  rw [List.getD_eq_getElem nodes "" hj] at h2
  exact hnt h2

/-- What the skip-scan returns: a cluster node not yet tried, with an in-range
new cursor. -/
theorem find_untried_some_spec (nodes : List String) :
    ∀ (fuel cursor : Nat) (tried : List String) (n : String) (c' : Nat),
      cursor < nodes.length →
      find_untried nodes fuel cursor tried = some (n, c') →
      n ∈ nodes ∧ n ∉ tried ∧ c' < nodes.length := by
  intro fuel
  induction fuel with
  | zero => intro cursor tried n c' _ h; exact absurd h (by simp [find_untried])
  | succ fuel ih =>
    intro cursor tried n c' hc hsome
    have hN : 0 < nodes.length := Nat.lt_of_le_of_lt (Nat.zero_le cursor) hc
    unfold find_untried at hsome
    simp only [get_next_node] at hsome
    by_cases hmem : nodes.getD cursor "" ∈ tried
    · rw [if_pos hmem] at hsome
      exact ih ((cursor + 1) % nodes.length) tried n c' (Nat.mod_lt _ hN) hsome
    · rw [if_neg hmem] at hsome
      have hn : n = nodes.getD cursor "" ∧ c' = (cursor + 1) % nodes.length := by
        have := hsome
        simp only [Option.some.injEq, Prod.mk.injEq] at this
        exact ⟨this.1.symm, this.2.symm⟩
      refine ⟨?_, ?_, ?_⟩
      · rw [hn.1, List.getD_eq_getElem nodes "" hc]
        exact List.getElem_mem hc
      · rw [hn.1]; exact hmem
      · rw [hn.2]; exact Nat.mod_lt _ hN

/-- Marking one more node as tried removes exactly that node from the untried
remainder (up to permutation). -/
theorem filter_untried_perm (n : String) :
    ∀ (nodes tried : List String), nodes.Nodup → n ∈ nodes → n ∉ tried →
      (nodes.filter (fun x => decide (x ∉ tried))).Perm
        (n :: nodes.filter (fun x => decide (x ∉ tried ++ [n]))) := by
  intro nodes
  induction nodes with
  | nil => intro tried _ hn _; exact absurd hn (by simp)
  | cons a as ih =>
    intro tried hnd hn hnt
    have ha : a ∉ as := (List.nodup_cons.mp hnd).1
    have has : as.Nodup := (List.nodup_cons.mp hnd).2
    by_cases heq : n = a
    · subst heq
      have hrest : as.filter (fun x => decide (x ∉ tried))
          = as.filter (fun x => decide (x ∉ tried ++ [n])) := by
        refine List.filter_congr ?_
        intro x hx
        have hxn : x ≠ n := fun h => ha (h ▸ hx)
        simp [List.mem_append, hxn]
      simp only [List.filter_cons]
      rw [if_pos (by simpa using hnt), if_neg (by simp)]
      rw [hrest]
    · have hnas : n ∈ as := by
        rcases List.mem_cons.mp hn with h | h
        · exact absurd h heq
        · exact h
      have hih := ih tried has hnas hnt
      by_cases hatried : a ∈ tried
      · simp only [List.filter_cons]
        rw [if_neg (by simpa using hatried),
          if_neg (by simp [List.mem_append, hatried])]
        exact hih
      · simp only [List.filter_cons]
        rw [if_pos (by simpa using hatried),
          if_pos (by
            simp only [decide_eq_true_eq, List.mem_append, List.mem_singleton]
            push_neg
            exact ⟨hatried, fun h => heq h.symm⟩)]
        exact (hih.cons a).trans (List.Perm.swap n a _)

/-- When every node's attempt fails, the failover loop tries each remaining
untried node exactly once (in some order), appends one error line per node,
and raises the accumulated list. -/
theorem request_loop_all_fail {D : Type} (oracle : String → Except String D)
    (nodes : List String) (reason : String → String)
    (hfail : ∀ n ∈ nodes, oracle n = Except.error (reason n))
    (hnd : nodes.Nodup) :
    ∀ (k cursor : Nat) (tried errors : List String),
      cursor < nodes.length → tried.Nodup → tried ⊆ nodes →
      k + tried.length = nodes.length →
      ∃ (order : List String) (c' : Nat),
        order.Perm (nodes.filter (fun x => decide (x ∉ tried))) ∧
        request_loop oracle nodes k cursor tried errors =
          (Except.error
            (errors ++ order.map (fun n => node_fail_msg n (reason n))), c') := by
  intro k
  induction k with
  | zero =>
    intro cursor tried errors hc htnd htsub hk
    have hperm : tried.Perm nodes := by
      refine (List.subperm_of_subset htnd htsub).perm_of_length_le ?_
      omega
    have hfilter : nodes.filter (fun x => decide (x ∉ tried)) = [] := by
      rw [List.filter_eq_nil_iff]
      intro a ha
      simp only [decide_eq_true_eq, not_not]
      exact hperm.mem_iff.mpr ha
    exact ⟨[], cursor, by rw [hfilter], by simp [request_loop]⟩
  | succ k ih =>
    intro cursor tried errors hc htnd htsub hk
    have huntried : ∃ n ∈ nodes, n ∉ tried := by
      by_contra hnone
      push_neg at hnone
      have hsub : nodes ⊆ tried := fun n hn => hnone n hn
      have := (List.subperm_of_subset hnd hsub).length_le
      omega
    rcases Option.ne_none_iff_exists'.mp
      (find_untried_finds nodes cursor tried hc huntried) with ⟨⟨n, c0⟩, hfind⟩
    rcases find_untried_some_spec nodes nodes.length cursor tried n c0 hc hfind
      with ⟨hn_mem, hn_untried, hc0⟩
    have htnd' : (tried ++ [n]).Nodup := by
      refine htnd.append (by simp) ?_
      intro a ha
      simp only [List.mem_singleton]
      intro h
      exact hn_untried (h ▸ ha)
    have htsub' : tried ++ [n] ⊆ nodes := by
      intro a ha
      rcases List.mem_append.mp ha with h | h
      · exact htsub h
      · rw [List.mem_singleton.mp h]; exact hn_mem
    have hk' : k + (tried ++ [n]).length = nodes.length := by
      simp only [List.length_append, List.length_singleton]
      omega
    rcases ih c0 (tried ++ [n])
      (errors ++ [node_fail_msg n (reason n)]) hc0 htnd' htsub' hk'
      with ⟨order, c', horder, hloop⟩
    refine ⟨n :: order, c', ?_, ?_⟩
    · have hstep := filter_untried_perm n nodes tried hnd hn_mem hn_untried
      exact ((horder.cons n).trans (hstep.symm))
    · simp only [request_loop, hfind, hfail n hn_mem, hloop]
      simp [List.append_assoc]

/-- C3: `_make_request` returns the decoded response of the preferred node
immediately when that attempt succeeds; and when every node of the cluster
fails, it tries every node exactly once — the preferred node first when given —
and raises one aggregated error holding one distinct failure line for each of
the `N` nodes. -/
theorem make_request_failover {D : Type} (oracle : String → Except String D)
    (nodes : List String) (reason : String → String) (cursor : Nat)
    (hnd : nodes.Nodup) (hc : cursor < nodes.length) :
    (∀ (p : String) (d : D), p ∈ nodes → oracle p = Except.ok d →
      make_request oracle nodes cursor (some p) = (Except.ok d, cursor)) ∧
    ((∀ n ∈ nodes, oracle n = Except.error (reason n)) →
      ∃ (order : List String) (c' : Nat), order.Perm nodes ∧
        make_request oracle nodes cursor none =
          (Except.error (order.map (fun n => node_fail_msg n (reason n))), c') ∧
        (order.map (fun n => node_fail_msg n (reason n))).length
          = nodes.length) ∧
    ((∀ n ∈ nodes, oracle n = Except.error (reason n)) →
      ∀ p ∈ nodes,
        ∃ (order : List String) (c' : Nat), (p :: order).Perm nodes ∧
          make_request oracle nodes cursor (some p) =
            (Except.error (specified_fail_msg p (reason p) ::
              order.map (fun n => node_fail_msg n (reason n))), c') ∧
          (specified_fail_msg p (reason p) ::
            order.map (fun n => node_fail_msg n (reason n))).length
            = nodes.length) := by
  refine ⟨?_, ?_, ?_⟩
  · intro p d hp hok
    simp [make_request, hp, hok]
  · intro hfail
    rcases request_loop_all_fail oracle nodes reason hfail hnd nodes.length
        cursor [] [] hc (by simp) (by simp) (by simp)
      with ⟨order, c', horder, hloop⟩
    have hfilter : nodes.filter (fun x => decide (x ∉ ([] : List String)))
        = nodes := by
      simp
    rw [hfilter] at horder
    refine ⟨order, c', horder, ?_, ?_⟩
    · simpa [make_request] using hloop
    · rw [List.length_map, horder.length_eq]
  · intro hfail p hp
    have hN : 0 < nodes.length := Nat.lt_of_le_of_lt (Nat.zero_le cursor) hc
    rcases request_loop_all_fail oracle nodes reason hfail hnd
        (nodes.length - 1) cursor [p] [specified_fail_msg p (reason p)] hc
        (by simp) (by simpa using hp) (by simp; omega)
      with ⟨order, c', horder, hloop⟩
    have hsplit := filter_untried_perm p nodes [] hnd hp (by simp)
    have hnil : nodes.filter (fun x => decide (x ∉ ([] : List String)))
        = nodes := by
      simp
    rw [hnil, List.nil_append] at hsplit
    refine ⟨order, c', ?_, ?_, ?_⟩
    · exact ((horder.cons p).trans hsplit.symm)
    · have hpmem : p ∈ nodes := hp
      simp only [make_request, hpmem, if_pos, hfail p hp]
      simpa [List.singleton_append] using hloop
    · have hlen : (p :: order).length = nodes.length :=
        ((horder.cons p).trans hsplit.symm).length_eq
      simpa using hlen

/-- C3 witness: a three-node cluster whose preferred node `"b"` answers
successfully; the call returns the decoded response at once. -/
theorem make_request_failover_witness :
    make_request
        (fun n => if n = "b" then Except.ok "pong"
          else Except.error ("refused " ++ n))
        ["a", "b", "c"] 0 (some "b") = (Except.ok "pong", 0) :=
  (make_request_failover
      (fun n => if n = "b" then Except.ok "pong"
        else Except.error ("refused " ++ n))
      ["a", "b", "c"] (fun n => "refused " ++ n) 0 (by decide) (by decide)).1
    "b" "pong" (by decide) (by simp)

/-- Python dict assignment `result[key] = value` on a dict without that key appends the entry. -/
theorem dict_insert_fresh (m : List (String × Int)) (k : String) (v : Int)
    (hk : k ∉ m.map Prod.fst) : dict_insert m k v = m ++ [(k, v)] := by
  unfold dict_insert
  rw [if_neg]
  intro hany
  rcases List.any_eq_true.mp hany with ⟨p, hp, hpk⟩
  exact hk (List.mem_map.mpr ⟨p, hp, beq_iff_eq.mp hpk⟩)

/-- The accumulation loop of `get_messages_ready_count` over a queue listing
with pairwise-distinct keys appends one entry per queue that reports a
`messages_ready` field. -/
theorem foldl_dict_insert (vh : String) :
    ∀ (qs : List QueueData) (acc : List (String × Int)),
      (acc.map Prod.fst ++ qs.map (fun qd => vh ++ "/" ++ qd.name)).Nodup →
      List.foldl (fun acc qd =>
        match qd.messagesReady with
        | some m => dict_insert acc (vh ++ "/" ++ qd.name) m
        | none => acc) acc qs
      = acc ++ qs.filterMap
          (fun qd => qd.messagesReady.map (fun m => (vh ++ "/" ++ qd.name, m))) := by
  intro qs
  induction qs with
  | nil => intro acc _; simp
  | cons qd qs ih =>
    intro acc hnd
    have hfresh : (vh ++ "/" ++ qd.name) ∉ acc.map Prod.fst := by
      intro hmem
      have := List.disjoint_of_nodup_append hnd
      exact this hmem (by simp)
    cases hmr : qd.messagesReady with
    | none =>
      have hnd' : (acc.map Prod.fst ++
          qs.map (fun qd => vh ++ "/" ++ qd.name)).Nodup := by
        refine List.Nodup.sublist ?_ hnd
        exact (List.sublist_cons_self _ _).append_left _
      simp only [List.foldl_cons, hmr]
      rw [ih acc hnd']
      simp [List.filterMap_cons, hmr]
    | some m =>
      have hstep : dict_insert acc (vh ++ "/" ++ qd.name) m
          = acc ++ [(vh ++ "/" ++ qd.name, m)] :=
        dict_insert_fresh acc _ m hfresh
      have hnd' : ((acc ++ [(vh ++ "/" ++ qd.name, m)]).map Prod.fst ++
          qs.map (fun qd => vh ++ "/" ++ qd.name)).Nodup := by
        simpa [List.append_assoc] using hnd
      simp only [List.foldl_cons, hmr, hstep]
      rw [ih _ hnd']
      simp [List.filterMap_cons, hmr, List.append_assoc]

/-- C7: with both `vhost` and `queue` given and the broker reporting a
`messages_ready` field, the result is exactly one entry keyed
`"vhost/queue"`; with only `vhost` given, the result holds one entry keyed
`"vhost/queue"` for each queue of the vhost that the broker reports with a
`messages_ready` field. -/
theorem get_messages_ready_count_shape (b : BrokerResp) :
    (∀ (vh q : String) (qd : QueueData) (m : Int),
      b.singleQueue vh q = some qd → qd.messagesReady = some m →
      get_messages_ready_count b (some vh) (some q) = [(vh ++ "/" ++ q, m)]) ∧
    (∀ (vh : String) (qs : List QueueData),
      b.vhostQueues vh = some qs →
      (qs.map (fun qd => vh ++ "/" ++ qd.name)).Nodup →
      get_messages_ready_count b (some vh) none
        = qs.filterMap
            (fun qd => qd.messagesReady.map
              (fun m => (vh ++ "/" ++ qd.name, m)))) := by
  constructor
  · intro vh q qd m hq hm
    simp [get_messages_ready_count, hq, hm]
  · intro vh qs hqs hkeys
    simp only [get_messages_ready_count, hqs]
    have := foldl_dict_insert vh qs [] (by simpa using hkeys)
    simpa using this

/-- C7 witness: a broker reporting one queue directly and a three-queue vhost
listing where the middle queue lacks `messages_ready`. -/
theorem get_messages_ready_count_shape_witness :
    get_messages_ready_count
        ⟨fun v q => some ⟨q, v, some 7⟩,
          fun v => some [⟨"q1", v, some 7⟩, ⟨"q2", v, none⟩, ⟨"q3", v, some 9⟩],
          none⟩ (some "vh") (some "qq") = [("vh/qq", 7)] ∧
      get_messages_ready_count
        ⟨fun v q => some ⟨q, v, some 7⟩,
          fun v => some [⟨"q1", v, some 7⟩, ⟨"q2", v, none⟩, ⟨"q3", v, some 9⟩],
          none⟩ (some "vh") none = [("vh/q1", 7), ("vh/q3", 9)] := by
  constructor
  · exact (get_messages_ready_count_shape _).1 "vh" "qq" ⟨"qq", "vh", some 7⟩ 7
      rfl rfl
  · have := (get_messages_ready_count_shape
        ⟨fun v q => some ⟨q, v, some 7⟩,
          fun v => some [⟨"q1", v, some 7⟩, ⟨"q2", v, none⟩, ⟨"q3", v, some 9⟩],
          none⟩).2 "vh"
      [⟨"q1", "vh", some 7⟩, ⟨"q2", "vh", none⟩, ⟨"q3", "vh", some 9⟩]
      rfl (by decide)
    rw [this]
    rfl

/-- C8 counterexample: an item whose cached `lastvalue`/`prevvalue` are `42`/`36`
but whose history is empty — `get_last_two_values` returns `(none, none)`
instead of falling back to the cached fields as the spec-modelled variant
does. -/
theorem get_last_two_values_no_fallback_cex :
    get_last_two_values ⟨[⟨"28979", some 42, some 36⟩], fun _ => []⟩
        = (none, none) ∧
      get_last_two_values_spec ⟨[⟨"28979", some 42, some 36⟩], fun _ => []⟩
        = (some 42, some 36) ∧
      get_last_two_values ⟨[⟨"28979", some 42, some 36⟩], fun _ => []⟩
        ≠ get_last_two_values_spec
            ⟨[⟨"28979", some 42, some 36⟩], fun _ => []⟩ := by
  have h1 : get_last_two_values ⟨[⟨"28979", some 42, some 36⟩], fun _ => []⟩
      = (none, none) := rfl
  have h2 : get_last_two_values_spec
      ⟨[⟨"28979", some 42, some 36⟩], fun _ => []⟩ = (some 42, some 36) := rfl
  refine ⟨h1, h2, ?_⟩
  rw [h1, h2]
  simp

/-- C8 amended: `get_last_two_values` fetches the item id and the two newest
history rows and returns `(newest, second newest)` with `none` for missing
rows; when no history rows exist it returns `(none, none)` — there is no
fallback to the item's cached last/previous value fields. -/
theorem get_last_two_values_amended (env : ZbxHistoryEnv) :
    (env.items = [] → get_last_two_values env = (none, none)) ∧
    (∀ item, env.items.head? = some item →
      get_last_two_values env =
        ((env.history item.itemid)[0]?, (env.history item.itemid)[1]?)) ∧
    (∀ item, env.items.head? = some item → env.history item.itemid = [] →
      get_last_two_values env = (none, none)) := by
  refine ⟨?_, ?_, ?_⟩
  · intro h
    simp [get_last_two_values, h]
  · intro item hitem
    simp only [get_last_two_values, hitem]
    rcases hh : env.history item.itemid with _ | ⟨a, _ | ⟨b, rest⟩⟩ <;> simp
  · intro item hitem hh
    simp [get_last_two_values, hitem, hh]

/-- C8 amended witness: with three history rows the two newest are returned. -/
theorem get_last_two_values_amended_witness :
    get_last_two_values ⟨[⟨"item1", none, none⟩], fun _ => [50, 40, 30]⟩
      = (some 50, some 40) := by
  have := (get_last_two_values_amended
      ⟨[⟨"item1", none, none⟩], fun _ => [50, 40, 30]⟩).2.1
    ⟨"item1", none, none⟩ rfl
  rw [this]
  rfl

/-- C5 counterexample: a backend response reporting ten processed items — the
code accepts it (the check is a substring test on the first info segment), but
it does not indicate exactly one processed item. -/
theorem send_with_socket_substring_cex :
    send_with_socket ⟨true, [90, 66, 88, 68, 1, 60, 0, 0, 0, 0, 0, 0, 0],
        fun _ => some ⟨some "success",
          some "processed: 10; failed: 0; total: 10; seconds spent: 0.000070"⟩⟩
      = true ∧
    ¬ spec_delivery_success ⟨some "success",
        some "processed: 10; failed: 0; total: 10; seconds spent: 0.000070"⟩ := by
  constructor
  · rfl
  · intro h
    exact absurd h.2 (by decide)

/-- C5 amended: the plain-socket sender returns `true` exactly when the
connection steps succeed, a full 13-byte header is read, the body parses, the
response field is `"success"`, and the stripped first `;`-segment of `info`
contains `"processed: 1"` or `"processed 1"` as a substring (which also
accepts larger counts such as 10); an info segment of `"processed: 0"` is a
failure, and every failure is returned as `false`, never raised. -/
theorem send_with_socket_amended (env : SocketEnv) :
    (send_with_socket env = true ↔
      (env.connectOk = true ∧ 13 ≤ env.responseHeader.length ∧
        ∃ resp, env.responseBody
            (le_bytes_to_nat ((env.responseHeader.drop 5).take 4)) = some resp ∧
          resp.response = some "success" ∧
          (list_in "processed: 1".toList
              (processed_segment (resp.info.getD "")) = true ∨
            list_in "processed 1".toList
              (processed_segment (resp.info.getD "")) = true))) ∧
    (∀ resp, env.responseBody
        (le_bytes_to_nat ((env.responseHeader.drop 5).take 4)) = some resp →
      processed_segment (resp.info.getD "") = "processed: 0".toList →
      send_with_socket env = false) := by
  constructor
  · cases hconn : env.connectOk with
    | false => simp [send_with_socket, hconn]
    | true =>
      by_cases hlen : env.responseHeader.length < 13
      · simp [send_with_socket, hconn, hlen]
      · cases hbody : env.responseBody
            (le_bytes_to_nat ((env.responseHeader.drop 5).take 4)) with
        | none => simp [send_with_socket, hconn, hlen, hbody]
        | some resp =>
          by_cases hresp : resp.response = some "success"
          · simp [send_with_socket, hconn, hlen, hbody, hresp]
            omega
          · simp [send_with_socket, hconn, hlen, hbody, hresp]
  · intro resp hbody hseg
    cases hconn : env.connectOk with
    | false => simp [send_with_socket, hconn]
    | true =>
      by_cases hlen : env.responseHeader.length < 13
      · simp [send_with_socket, hconn, hlen]
      · by_cases hresp : resp.response = some "success"
        · simp only [send_with_socket, hconn, hlen, hbody, hresp]
          rw [hseg]
          simp
          decide
        · simp [send_with_socket, hconn, hlen, hbody, hresp]

/-- C5 amended witness: a `"processed: 0"` info segment is rejected even with
`response == "success"`. -/
theorem send_with_socket_amended_witness :
    send_with_socket ⟨true, [90, 66, 88, 68, 1, 60, 0, 0, 0, 0, 0, 0, 0],
        fun _ => some ⟨some "success", some "processed: 0; failed: 1; total: 1"⟩⟩
      = false :=
  (send_with_socket_amended
      ⟨true, [90, 66, 88, 68, 1, 60, 0, 0, 0, 0, 0, 0, 0],
        fun _ => some ⟨some "success",
          some "processed: 0; failed: 1; total: 1"⟩⟩).2
    ⟨some "success", some "processed: 0; failed: 1; total: 1"⟩ rfl (by decide)

/-- C9: in PSK mode with a literal key and no PSK file, when the
`zabbix_sender` invocation raises, `_send_with_zabbix_sender_cli` returns a
failure with both temporary files — including the one holding the PSK key
material — still on disk: the cleanup loop is skipped because it runs after
`subprocess.run` rather than in a `finally` block. -/
theorem cli_sender_leaks_temp_files_on_raise :
    send_with_zabbix_sender_cli ⟨"psk", "monitor-psk", "abcdef0123456789", ""⟩
      ⟨false, none⟩ = (false, ["tmp_data", "tmp_psk"]) := by
  rfl
